import Mathlib

/-!
Shallow embedding of the `swainpipe` resumable pipeline executor
(`src/swainpipe/pipeline.py` and `src/swainpipe/cli.py`).

The executor applies an ordered list of named steps to a tabular dataset,
persisting an artifact and a checkpoint record after each completed step.
Datasets are modelled as lists of rows (each row an association list of
column name to string value); the individual pandas transforms in
`src/swainpipe/steps/` are domain-specific collaborators with no bearing on
the executor's control flow, so they appear as function parameters
(`Collab`), exactly as the step plugin contract describes them.
-/

namespace SwainPipe

/-- A tabular dataset: ordered rows, each a mapping from column name to a
scalar value (modelling the `pd.DataFrame` passed between steps). -/
abbrev Dataset := List (List (String × String))

/-- A JSON scalar as it appears in the persisted checkpoint file
(`json.dumps` / `json.loads` of the state dict): either `null` or a string. -/
inductive JVal where
  | null : JVal
  | str : String → JVal
deriving Repr, DecidableEq

/-- The in-memory pipeline state dict built by `Pipeline._load_state`:
`last_completed_step` (a step name or `None`), plus the run parameters
`input_file`, `output_dir`, `state_path`. -/
structure PipeState where
  last_completed_step : Option String
  input_file : String
  output_dir : String
  state_path : String
deriving Repr, DecidableEq

/-- `Pipeline.STEPS`: the ordered step registry. -/
def STEPS : List String :=
  ["convert_to_csv", "prep", "drop_cols", "manual_edits", "create_name",
   "create_participant_id"]

/-- The fresh state dict `_load_state` builds when no state file exists. -/
def freshState (input_file output_dir state_path : String) : PipeState :=
  { last_completed_step := none
    input_file := input_file
    output_dir := output_dir
    state_path := state_path }

/-- Serialization of the state dict to the checkpoint file's key-value
content (`json.dumps(self.state)` at the object layer). -/
def state_to_json (st : PipeState) : List (String × JVal) :=
  [("last_completed_step",
      match st.last_completed_step with
      | none => JVal.null
      | some s => JVal.str s),
   ("input_file", JVal.str st.input_file),
   ("output_dir", JVal.str st.output_dir),
   ("state_path", JVal.str st.state_path)]

/-- Reading the state dict back out of parsed checkpoint content: each field
is looked up by key; a missing key or a wrongly-typed value is a failure
(Python's `KeyError` on `self.state[...]`). -/
def state_of_json (j : List (String × JVal)) : Option PipeState :=
  match j.lookup "last_completed_step", j.lookup "input_file",
        j.lookup "output_dir", j.lookup "state_path" with
  | some lcs, some (JVal.str i), some (JVal.str o), some (JVal.str p) =>
      match lcs with
      | JVal.null => some { last_completed_step := none, input_file := i,
                            output_dir := o, state_path := p }
      | JVal.str s => some { last_completed_step := some s, input_file := i,
                             output_dir := o, state_path := p }
  | _, _, _, _ => none

/-- What the checkpoint file at `state_path` holds: it is absent, present but
unparseable (`json.loads` raises), or present with parsed content. -/
inductive FileContent where
  | absent : FileContent
  | unparseable : FileContent
  | content : List (String × JVal) → FileContent
deriving Repr, DecidableEq

/-- Fatal failures while loading the persisted state. -/
inductive LoadError where
  | jsonDecodeError : LoadError
  | missingField : LoadError
deriving Repr, DecidableEq

/-- `Pipeline._load_state`: if the state file exists its content is parsed
(`json.loads` raising on malformed content — there is no `try`/`except`
around it, so the error is fatal); if absent, a fresh state dict is built. -/
def load_state (fc : FileContent) (fresh : PipeState) :
    Except LoadError PipeState :=
  match fc with
  | FileContent.absent => Except.ok fresh
  | FileContent.unparseable => Except.error LoadError.jsonDecodeError
  | FileContent.content j =>
      match state_of_json j with
      | some r => Except.ok r
      | none => Except.error LoadError.missingField

/-- `Pipeline._save_state`: set `last_completed_step` to the step name and
write the serialized dict to the state file. Returns the updated in-memory
state and the written file content. -/
def save_state (st : PipeState) (step_name : String) :
    PipeState × List (String × JVal) :=
  let st' := { st with last_completed_step := some step_name }
  (st', state_to_json st')

/-- The durable filesystem the pipeline touches: the checkpoint file and the
artifacts in the output directory (file name paired with content). -/
structure FS where
  stateFile : Option (List (String × JVal))
  outputs : List (String × Dataset)
deriving Repr, DecidableEq

/-- `Pipeline.reset_state` (and the CLI `reset` command): delete the state
file if it exists (guarded, so a missing file is not an error) and rebuild
the in-memory state dict with `last_completed_step = None`. -/
def reset_state (fs : FS) (st : PipeState) : FS × PipeState :=
  ({ fs with stateFile := if fs.stateFile.isSome then none else fs.stateFile },
   { last_completed_step := none
     input_file := st.input_file
     output_dir := st.output_dir
     state_path := st.state_path })

/-- What `df = step_func(df)` inside `run`'s `try` block can do: raise (the
exception is caught by the bare `except`), or return a value — either `None`
or a dataset. -/
inductive StepOutcome where
  | raises : StepOutcome
  | returns : Option Dataset → StepOutcome
deriving Repr, DecidableEq

/-- One invocation of a step method: the `save_results` calls its body makes
itself (e.g. `step_create_participant_id` saving `participant_id_df`),
followed by its outcome. -/
structure StepExec where
  writes : List (String × Dataset)
  result : StepOutcome
deriving Repr, DecidableEq

/-- The errors `Pipeline.run` can raise before or during the step loop:
`ValueError` from `STEPS.index` on an unknown `last_completed_step`, or the
explicit `ValueError("Step ... not implemented")`. -/
inductive RunError where
  | unknownStep : String → RunError
  | stepNotImplemented : String → RunError
deriving Repr, DecidableEq

/-- The observable execution of `Pipeline.run`'s loop: the current dataset,
the checkpoint's `last_completed_step`, the trace of transform invocations
(step name with the dataset it received), the artifacts written in order,
whether a `None` result broke the loop, and a raised error if any. -/
structure LoopState where
  df : Dataset
  last : Option String
  invoked : List (String × Dataset)
  writes : List (String × Dataset)
  halted : Bool
  err : Option RunError
deriving Repr, DecidableEq

/-- The loop state at entry to `run`'s `for` loop: the dataset freshly read
from the raw input file (`pd.read_excel(self.input_file)`) and the loaded
checkpoint's `last_completed_step`. -/
def initLoop (raw : Dataset) (last : Option String) : LoopState :=
  { df := raw, last := last, invoked := [], writes := [], halted := false,
    err := none }

/-- `list.index` for step names: index of the first occurrence, or `none`
(where Python raises `ValueError`). -/
def indexOfName : List String → String → Option Nat
  | [], _ => none
  | x :: xs, s =>
      if x = s then some 0
      else (indexOfName xs s).map (· + 1)

/-- The resume cursor computation in `run`:
`if self.state['last_completed_step']: start_index = STEPS.index(...) + 1`.
Python truthiness makes both `None` and the empty string fall through to
`start_index = 0`. -/
def startIndex (names : List String) (last : Option String) :
    Except RunError Nat :=
  match last with
  | none => Except.ok 0
  | some s =>
      if s = "" then Except.ok 0
      else
        match indexOfName names s with
        | some i => Except.ok (i + 1)
        | none => Except.error (RunError.unknownStep s)

/-- The body of `run`'s `for step_name in self.STEPS[start_index:]` loop:
look up `step_{name}` (raising if absent), invoke it under `try`/`except`
(a caught exception leaves `df` unchanged and execution continues), `break`
without saving anything if `df is None`, otherwise `save_results` the
dataset as `<name>_results.csv` and `_save_state(name)`. -/
def loop (impl : String → Option (Dataset → StepExec)) :
    List String → LoopState → LoopState
  | [], st => st
  | name :: rest, st =>
      match impl name with
      | none => { st with err := some (RunError.stepNotImplemented name) }
      | some f =>
          let ex := f st.df
          let st1 := { st with invoked := st.invoked ++ [(name, st.df)],
                               writes := st.writes ++ ex.writes }
          match ex.result with
          | StepOutcome.returns none => { st1 with halted := true }
          | StepOutcome.returns (some d) =>
              loop impl rest
                { st1 with df := d,
                           writes := st1.writes ++ [(name ++ "_results.csv", d)],
                           last := some name }
          | StepOutcome.raises =>
              loop impl rest
                { st1 with
                    writes := st1.writes ++ [(name ++ "_results.csv", st.df)],
                    last := some name }

/-- `Pipeline.run`: read the raw input file into a dataset (the `raw`
argument stands for the content of `self.input_file`, read unconditionally
by `pd.read_excel` — persisted intermediate outputs are never reloaded),
compute the resume cursor from the loaded state, and run the remaining
steps. -/
def run (impl : String → Option (Dataset → StepExec)) (names : List String)
    (st : PipeState) (raw : Dataset) : Except RunError LoopState :=
  match startIndex names st.last_completed_step with
  | Except.error e => Except.error e
  | Except.ok i => Except.ok (loop impl (names.drop i) (initLoop raw st.last_completed_step))

/-- The external step collaborators (`steps/*.py` `run` functions), pluggable
transforms per the step plugin contract. `create_participant_id.run` returns
a pair `(df, participant_df)`. -/
structure Collab where
  prep : Dataset → Dataset
  drop_cols : Dataset → Dataset
  manual_edits : Dataset → Dataset
  create_name : Dataset → Dataset
  create_participant_id : Dataset → Dataset × Dataset

/-- The `getattr(self, f"step_{step_name}", None)` lookup resolved against
the `step_*` methods of `Pipeline`. `step_convert_to_csv` calls the dummy
`convert_to_csv.run` and returns `df` unchanged; `step_create_participant_id`
saves the extra `participant_id_df` artifact via `self.save_results` before
returning the merged dataset. -/
def stepImpl (c : Collab) : String → Option (Dataset → StepExec)
  | "convert_to_csv" =>
      some fun df => { writes := [], result := StepOutcome.returns (some df) }
  | "prep" =>
      some fun df => { writes := [], result := StepOutcome.returns (some (c.prep df)) }
  | "drop_cols" =>
      some fun df => { writes := [], result := StepOutcome.returns (some (c.drop_cols df)) }
  | "manual_edits" =>
      some fun df => { writes := [], result := StepOutcome.returns (some (c.manual_edits df)) }
  | "create_name" =>
      some fun df => { writes := [], result := StepOutcome.returns (some (c.create_name df)) }
  | "create_participant_id" =>
      some fun df =>
        let p := c.create_participant_id df
        { writes := [("participant_id_df_results.csv", p.2)],
          result := StepOutcome.returns (some p.1) }
  | _ => none

/-- A concrete choice of collaborators used to instantiate witnesses. -/
def idCollab : Collab :=
  { prep := fun d => d
    drop_cols := fun d => d
    manual_edits := fun d => d
    create_name := fun d => d
    create_participant_id := fun d => (d, d) }

/-- Collaborators whose `prep` transform drops every row, used to exhibit a
resume whose raw input differs from the persisted `prep` output. -/
def dropAllCollab : Collab :=
  { prep := fun _ => []
    drop_cols := fun d => d
    manual_edits := fun d => d
    create_name := fun d => d
    create_participant_id := fun d => (d, d) }

/-- The name of the last step of a registry, if any. -/
def lastName : List String → Option String
  | [] => none
  | [x] => some x
  | _ :: y :: ys => lastName (y :: ys)

/-- A three-step registry `A, B, C` of identity transforms, used to
instantiate resume statements on concrete inputs. -/
def abcImpl : String → Option (Dataset → StepExec)
  | "A" => some fun df => { writes := [], result := StepOutcome.returns (some df) }
  | "B" => some fun df => { writes := [], result := StepOutcome.returns (some df) }
  | "C" => some fun df => { writes := [], result := StepOutcome.returns (some df) }
  | _ => none

/-- A registry whose step `H` returns `None` (halting the pipeline). -/
def haltImpl : String → Option (Dataset → StepExec)
  | "H" => some fun _ => { writes := [], result := StepOutcome.returns none }
  | "X" => some fun df => { writes := [], result := StepOutcome.returns (some df) }
  | _ => none

/-- A registry whose step `R` raises inside its transform. -/
def raiseImpl : String → Option (Dataset → StepExec)
  | "R" => some fun _ => { writes := [], result := StepOutcome.raises }
  | "X" => some fun df => { writes := [], result := StepOutcome.returns (some df) }
  | _ => none

theorem indexOfName_cons (x : String) (xs : List String) (s : String) :
    indexOfName (x :: xs) s =
      if x = s then some 0 else (indexOfName xs s).map (· + 1) := rfl

theorem lastName_mem {names : List String} {l : String}
    (h : lastName names = some l) : l ∈ names := by
  induction names with
  | nil => simp [lastName] at h
  | cons x xs ih =>
      cases xs with
      | nil => simp [lastName] at h; simp [h]
      | cons y ys =>
          have := ih (by simpa [lastName] using h)
          simp [this]

theorem lastName_isSome {names : List String} (h : names ≠ []) :
    ∃ l, lastName names = some l := by
  induction names with
  | nil => exact absurd rfl h
  | cons x xs ih =>
      cases xs with
      | nil => exact ⟨x, rfl⟩
      | cons y ys => simpa [lastName] using ih (by simp)

theorem indexOfName_eq_none {names : List String} {s : String} :
    indexOfName names s = none ↔ s ∉ names := by
  induction names with
  | nil => simp [indexOfName]
  | cons x xs ih =>
      by_cases hx : x = s
      · subst hx; simp [indexOfName]
      · simp [indexOfName, hx, Option.map_eq_none, ih, Ne.symm hx]

theorem indexOfName_lastName {names : List String} {l : String}
    (hnd : names.Nodup) (hl : lastName names = some l) :
    indexOfName names l = some (names.length - 1) := by
  induction names with
  | nil => simp [lastName] at hl
  | cons x xs ih =>
      cases xs with
      | nil =>
          simp [lastName] at hl
          simp [indexOfName, hl]
      | cons y ys =>
          have hl' : lastName (y :: ys) = some l := by simpa [lastName] using hl
          have hmem : l ∈ y :: ys := lastName_mem hl'
          have hx : x ≠ l := by
            rintro rfl
            exact (List.nodup_cons.mp hnd).1 hmem
          have := ih (List.nodup_cons.mp hnd).2 hl'
          rw [indexOfName_cons, if_neg hx, this, Option.map_some']
          simp

theorem loop_err_of_impl (impl : String → Option (Dataset → StepExec))
    (names : List String) (st : LoopState)
    (h : ∀ n ∈ names, (impl n).isSome = true) :
    (loop impl names st).err = st.err := by
  induction names generalizing st with
  | nil => rfl
  | cons name rest ih =>
      have hname : (impl name).isSome = true := h name (by simp)
      obtain ⟨f, hf⟩ := Option.isSome_iff_exists.mp hname
      have hrest : ∀ n ∈ rest, (impl n).isSome = true :=
        fun n hn => h n (by simp [hn])
      cases hr : (f st.df).result with
      | raises => simp [loop, hf, hr, ih _ hrest]
      | returns o =>
          cases o with
          | none => simp [loop, hf, hr]
          | some d => simp [loop, hf, hr, ih _ hrest]

theorem loop_last_or (impl : String → Option (Dataset → StepExec))
    (names : List String) (st : LoopState)
    (hh : (loop impl names st).halted = false)
    (he : (loop impl names st).err = none) :
    (loop impl names st).last = (lastName names).or st.last := by
  induction names generalizing st with
  | nil => simp [loop, lastName]
  | cons name rest ih =>
      cases hf : impl name with
      | none => simp [loop, hf] at he
      | some f =>
          cases hr : (f st.df).result with
          | raises =>
              have hh' := hh; have he' := he
              simp only [loop, hf, hr] at hh' he' ⊢
              rw [ih _ hh' he']
              cases rest with
              | nil => simp [lastName]
              | cons b bs =>
                  obtain ⟨l, hl⟩ := @lastName_isSome (b :: bs) (by simp)
                  simp [lastName, hl]
          | returns o =>
              cases o with
              | none => simp [loop, hf, hr] at hh
              | some d =>
                  have hh' := hh; have he' := he
                  simp only [loop, hf, hr] at hh' he' ⊢
                  rw [ih _ hh' he']
                  cases rest with
                  | nil => simp [lastName]
                  | cons b bs =>
                      obtain ⟨l, hl⟩ := @lastName_isSome (b :: bs) (by simp)
                      simp [lastName, hl]

theorem indexOfName_isSome_of_mem {names : List String} {s : String}
    (h : s ∈ names) : ∃ k, indexOfName names s = some k := by
  cases hk : indexOfName names s with
  | none => exact absurd (indexOfName_eq_none.mp hk) (by simp [h])
  | some k => exact ⟨k, rfl⟩

/-- C3: if a step's transform returns the null dataset, the loop stops
immediately: the step is recorded as invoked, but no `<name>_results.csv`
artifact is persisted for it, no step of the remaining registry runs, and
the checkpoint's `last_completed_step` stays exactly what it was after the
prior completed step (or unset if none) — so a resume re-attempts the same
step. -/
theorem halt_on_none_persists_nothing
    (impl : String → Option (Dataset → StepExec)) (name : String)
    (rest : List String) (st : LoopState) (f : Dataset → StepExec)
    (hf : impl name = some f)
    (hr : (f st.df).result = StepOutcome.returns none) :
    loop impl (name :: rest) st =
      { st with invoked := st.invoked ++ [(name, st.df)],
                writes := st.writes ++ (f st.df).writes,
                halted := true } := by
  simp [loop, hf, hr]

/-- Witness for `halt_on_none_persists_nothing` at the concrete registry
`["H", "X"]` whose step `H` returns `None`. -/
theorem halt_on_none_persists_nothing_witness :
    loop haltImpl ["H", "X"] (initLoop [] (some "P")) =
      { df := [], last := some "P", invoked := [("H", [])], writes := [],
        halted := true, err := none } :=
  halt_on_none_persists_nothing haltImpl "H" ["X"] (initLoop [] (some "P"))
    (fun _ => { writes := [], result := StepOutcome.returns none }) rfl rfl

/-- C4: if a step's transform raises, the executor catches the fault, keeps
the current (unchanged) dataset, persists it as the step's
`<name>_results.csv` artifact, advances `last_completed_step` to that step's
name, and proceeds with the remaining steps — the caught fault never halts
the sequence. -/
theorem raised_fault_continues
    (impl : String → Option (Dataset → StepExec)) (name : String)
    (rest : List String) (st : LoopState) (f : Dataset → StepExec)
    (hf : impl name = some f)
    (hr : (f st.df).result = StepOutcome.raises) :
    loop impl (name :: rest) st =
      loop impl rest
        { st with invoked := st.invoked ++ [(name, st.df)],
                  writes := st.writes ++ (f st.df).writes
                              ++ [(name ++ "_results.csv", st.df)],
                  last := some name } := by
  simp [loop, hf, hr]

/-- Witness for `raised_fault_continues` at the concrete registry
`["R", "X"]` whose step `R` raises: the run continues into `X`. -/
theorem raised_fault_continues_witness :
    loop raiseImpl ["R", "X"] (initLoop [[("a", "1")]] none) =
      loop raiseImpl ["X"]
        { df := [[("a", "1")]], last := some "R",
          invoked := [("R", [[("a", "1")]])],
          writes := [("R_results.csv", [[("a", "1")]])],
          halted := false, err := none } :=
  raised_fault_continues raiseImpl "R" ["X"] (initLoop [[("a", "1")]] none)
    (fun _ => { writes := [], result := StepOutcome.raises }) rfl rfl

/-- C7: the save/load pair on the checkpoint record round-trips — writing
the state dict after `_save_state` and reading it back through
`_load_state` yields the very record that was saved, on all four fields. -/
theorem checkpoint_roundtrip (st fresh : PipeState) (step_name : String) :
    load_state (FileContent.content (save_state st step_name).2) fresh =
        Except.ok (save_state st step_name).1
      ∧ state_of_json (state_to_json st) = some st := by
  obtain ⟨lcs, i, o, p⟩ := st
  cases lcs <;> exact ⟨rfl, rfl⟩

/-- C8: `reset_state` deletes the persisted checkpoint record and resets
`last_completed_step` to unset (so a fresh run's resume cursor is step 0),
leaves every output artifact untouched, and is idempotent — resetting when
no persisted record exists succeeds rather than erroring. -/
theorem reset_clears_only_checkpoint (fs : FS) (st : PipeState)
    (names : List String) :
    (reset_state fs st).1.stateFile = none
      ∧ (reset_state fs st).2.last_completed_step = none
      ∧ (reset_state fs st).1.outputs = fs.outputs
      ∧ reset_state (reset_state fs st).1 (reset_state fs st).2 =
          reset_state fs st
      ∧ startIndex names (reset_state fs st).2.last_completed_step =
          Except.ok 0 := by
  obtain ⟨sf, out⟩ := fs
  cases sf <;> simp [reset_state, startIndex]

/-- C1 (divergence exhibit): resuming after `prep` with collaborators whose
`prep` drops every row, the first remaining step `drop_cols` is invoked on
the raw input dataset re-read from `input_file` — even though the dataset
`prep` would have persisted (`[]`) differs from that raw input. The
executor reconstructs nothing from the persisted intermediate output. -/
theorem resume_feeds_raw_input_to_next_step :
    ∃ st1,
      run (stepImpl dropAllCollab) STEPS
          { last_completed_step := some "prep",
            input_file := "data/raw_data.xlsx", output_dir := "output",
            state_path := "logs/pipeline_state.json" }
          [[("a", "1")]] = Except.ok st1
        ∧ st1.invoked.head? = some ("drop_cols", [[("a", "1")]])
        ∧ dropAllCollab.prep [[("a", "1")]] ≠ [[("a", "1")]] :=
  ⟨_, rfl, rfl, by decide⟩

/-- C5 (counterexample): a persisted checkpoint whose `last_completed_step`
is the empty string — a value absent from the registry — is NOT rejected:
Python's truthiness test `if self.state['last_completed_step']:` treats it
as "no checkpoint" and the run silently executes every step from scratch,
succeeding with all six steps invoked. -/
theorem empty_name_checkpoint_not_rejected :
    ("" ∉ STEPS)
      ∧ ∃ st1,
          run (stepImpl idCollab) STEPS
              { last_completed_step := some "",
                input_file := "data/raw_data.xlsx", output_dir := "output",
                state_path := "logs/pipeline_state.json" }
              [] = Except.ok st1
            ∧ st1.invoked.map Prod.fst = STEPS :=
  ⟨by decide, _, rfl, rfl⟩

/-- C5 (amended): an unparseable checkpoint file is a fatal load error
(never treated as "no checkpoint"), and a checkpoint whose
`last_completed_step` is a NONEMPTY name absent from the registry makes
`run` fail with `unknownStep` before the step loop starts, so no step
executes. (The empty-string value is the one exception: it is falsy in
Python and silently treated as an absent checkpoint.) -/
theorem malformed_checkpoint_rejected
    (fresh : PipeState) (impl : String → Option (Dataset → StepExec))
    (names : List String) (s : String) (st : PipeState) (raw : Dataset)
    (hst : st.last_completed_step = some s) (hne : s ≠ "")
    (hmem : s ∉ names) :
    load_state FileContent.unparseable fresh =
        Except.error LoadError.jsonDecodeError
      ∧ run impl names st raw = Except.error (RunError.unknownStep s) := by
  refine ⟨rfl, ?_⟩
  have hidx : indexOfName names s = none := indexOfName_eq_none.mpr hmem
  simp [run, startIndex, hst, hne, hidx]

/-- Witness for `malformed_checkpoint_rejected`: the registry `STEPS` with a
checkpoint naming the absent step `"bogus"`. -/
theorem malformed_checkpoint_rejected_witness :
    load_state FileContent.unparseable
        (freshState "data/raw_data.xlsx" "output" "logs/pipeline_state.json") =
        Except.error LoadError.jsonDecodeError
      ∧ run (stepImpl idCollab) STEPS
          { last_completed_step := some "bogus",
            input_file := "data/raw_data.xlsx", output_dir := "output",
            state_path := "logs/pipeline_state.json" }
          [] = Except.error (RunError.unknownStep "bogus") :=
  malformed_checkpoint_rejected
    (freshState "data/raw_data.xlsx" "output" "logs/pipeline_state.json")
    (stepImpl idCollab) STEPS "bogus"
    { last_completed_step := some "bogus",
      input_file := "data/raw_data.xlsx", output_dir := "output",
      state_path := "logs/pipeline_state.json" }
    [] rfl (by decide) (by decide)

/-- C9 (counterexample): resuming after `create_name` so that exactly one
step, `create_participant_id`, completes: that single completed step writes
TWO artifacts — `participant_id_df_results.csv` from inside the step body
and `create_participant_id_results.csv` from the run loop — refuting
"exactly one artifact per completed step". -/
theorem participant_id_step_writes_two_artifacts :
    ∃ st1,
      run (stepImpl idCollab) STEPS
          { last_completed_step := some "create_name",
            input_file := "data/raw_data.xlsx", output_dir := "output",
            state_path := "logs/pipeline_state.json" }
          [[("a", "1")]] = Except.ok st1
        ∧ st1.invoked.map Prod.fst = ["create_participant_id"]
        ∧ st1.writes.map Prod.fst =
            ["participant_id_df_results.csv",
             "create_participant_id_results.csv"] :=
  ⟨_, rfl, rfl, rfl⟩

/-- C9 (amended): every completed step writes the deterministically named
artifact `<step_name>_results.csv` via the run loop, and every step writes
exactly that one artifact except `create_participant_id`, whose body
additionally saves `participant_id_df_results.csv` — so a full run of the
six-step registry writes exactly these seven artifacts, in this order, for
any collaborators and any input. -/
theorem one_artifact_per_step_except_participant_id
    (c : Collab) (raw : Dataset) (i o p : String) :
    ∃ st1,
      run (stepImpl c) STEPS
          { last_completed_step := none, input_file := i, output_dir := o,
            state_path := p } raw = Except.ok st1
        ∧ st1.invoked.map Prod.fst = STEPS
        ∧ st1.writes.map Prod.fst =
            ["convert_to_csv_results.csv", "prep_results.csv",
             "drop_cols_results.csv", "manual_edits_results.csv",
             "create_name_results.csv", "participant_id_df_results.csv",
             "create_participant_id_results.csv"] :=
  ⟨_, rfl, rfl, rfl⟩

/-- C2: with a registry `[A, B, C]` of distinct steps and a checkpoint whose
`last_completed_step` is `A`, a resumed run executes exactly `B` then `C`,
in that order, and never re-executes `A` (provided `B` and `C` resolve and
`B` does not halt the pipeline by returning the null dataset). -/
theorem resume_executes_exactly_remaining
    (impl : String → Option (Dataset → StepExec)) (a b c : String)
    (st : PipeState) (raw : Dataset) (fb fc : Dataset → StepExec)
    (hst : st.last_completed_step = some a)
    (ha : a ≠ "") (hab : a ≠ b) (hac : a ≠ c)
    (hb : impl b = some fb) (hc : impl c = some fc)
    (hnb : (fb raw).result ≠ StepOutcome.returns none) :
    ∃ st1,
      run impl [a, b, c] st raw = Except.ok st1
        ∧ st1.invoked.map Prod.fst = [b, c]
        ∧ a ∉ st1.invoked.map Prod.fst := by
  have hrun : run impl [a, b, c] st raw =
      Except.ok (loop impl [b, c] (initLoop raw (some a))) := by
    simp [run, startIndex, hst, ha, indexOfName]
  refine ⟨loop impl [b, c] (initLoop raw (some a)), hrun, ?_⟩
  have key : (loop impl [b, c] (initLoop raw (some a))).invoked.map Prod.fst
      = [b, c] := by
    cases hrb : (fb raw).result with
    | raises =>
        cases hrc : (fc raw).result with
        | raises => simp [loop, hb, hc, hrb, hrc, initLoop]
        | returns oc =>
            cases oc <;> simp [loop, hb, hc, hrb, hrc, initLoop]
    | returns ob =>
        cases ob with
        | none => exact absurd hrb hnb
        | some d =>
            cases hrc : (fc d).result with
            | raises => simp [loop, hb, hc, hrb, hrc, initLoop]
            | returns oc =>
                cases oc <;> simp [loop, hb, hc, hrb, hrc, initLoop]
  refine ⟨key, ?_⟩
  rw [key]
  simp [hab, hac]

/-- Witness for `resume_executes_exactly_remaining`: the concrete registry
`["A", "B", "C"]` of identity transforms with checkpoint `A`. -/
theorem resume_executes_exactly_remaining_witness :
    ∃ st1,
      run abcImpl ["A", "B", "C"]
          { last_completed_step := some "A", input_file := "in",
            output_dir := "out", state_path := "state" }
          [] = Except.ok st1
        ∧ st1.invoked.map Prod.fst = ["B", "C"]
        ∧ "A" ∉ st1.invoked.map Prod.fst :=
  resume_executes_exactly_remaining abcImpl "A" "B" "C"
    { last_completed_step := some "A", input_file := "in",
      output_dir := "out", state_path := "state" }
    []
    (fun df => { writes := [], result := StepOutcome.returns (some df) })
    (fun df => { writes := [], result := StepOutcome.returns (some df) })
    rfl (by decide) (by decide) (by decide) rfl rfl (by decide)

/-- C10: every name in `Pipeline.STEPS` resolves to an implemented
`step_<name>` method, so for any execution starting from an absent or
well-formed checkpoint the `Step not implemented` branch never fires: the
run returns normally with no raised error. -/
theorem steps_all_implemented
    (c : Collab) (st : PipeState) (raw : Dataset)
    (hwf : st.last_completed_step = none ∨
           ∃ s ∈ STEPS, st.last_completed_step = some s) :
    (∀ name ∈ STEPS, (stepImpl c name).isSome = true)
      ∧ ∃ st1, run (stepImpl c) STEPS st raw = Except.ok st1
          ∧ st1.err = none := by
  have himpl : ∀ name ∈ STEPS, (stepImpl c name).isSome = true := by
    intro name hn
    simp only [STEPS, List.mem_cons, List.not_mem_nil, or_false] at hn
    rcases hn with rfl | rfl | rfl | rfl | rfl | rfl <;> rfl
  refine ⟨himpl, ?_⟩
  have herr : ∀ (i : Nat) (ls : LoopState),
      (loop (stepImpl c) (STEPS.drop i) ls).err = ls.err := by
    intro i ls
    exact loop_err_of_impl _ _ _
      (fun n hn => himpl n (List.mem_of_mem_drop hn))
  rcases hwf with h | ⟨s, hs, h⟩
  · refine ⟨loop (stepImpl c) (STEPS.drop 0) (initLoop raw st.last_completed_step),
      ?_, herr 0 _⟩
    simp [run, startIndex, h]
  · have hne : s ≠ "" := by
      simp only [STEPS, List.mem_cons, List.not_mem_nil, or_false] at hs
      rcases hs with rfl | rfl | rfl | rfl | rfl | rfl <;> decide
    obtain ⟨k, hk⟩ := indexOfName_isSome_of_mem hs
    refine ⟨loop (stepImpl c) (STEPS.drop (k + 1))
      (initLoop raw st.last_completed_step), ?_, herr (k + 1) _⟩
    simp [run, startIndex, h, hne, hk]

/-- Witness for `steps_all_implemented`: a fresh run (absent checkpoint)
with identity collaborators. -/
theorem steps_all_implemented_witness :
    (∀ name ∈ STEPS, (stepImpl idCollab name).isSome = true)
      ∧ ∃ st1, run (stepImpl idCollab) STEPS
          { last_completed_step := none, input_file := "in",
            output_dir := "out", state_path := "state" }
          [] = Except.ok st1 ∧ st1.err = none :=
  steps_all_implemented idCollab
    { last_completed_step := none, input_file := "in", output_dir := "out",
      state_path := "state" }
    [] (Or.inl rfl)

/-- C6: a run from scratch that completes every registry step (no halt, no
error) leaves the checkpoint at the registry's last step; resuming from
that checkpoint invokes zero transforms and writes zero artifacts, so every
previously written output artifact is untouched. -/
theorem idempotent_resume
    (impl : String → Option (Dataset → StepExec)) (names : List String)
    (st0 stR : PipeState) (raw rawR : Dataset) (st1 : LoopState)
    (hnd : names.Nodup) (hempty : "" ∉ names) (hne : names ≠ [])
    (h0 : st0.last_completed_step = none)
    (hrun : run impl names st0 raw = Except.ok st1)
    (hh : st1.halted = false) (herr : st1.err = none)
    (hR : stR.last_completed_step = st1.last) :
    ∃ st2, run impl names stR rawR = Except.ok st2
      ∧ st2.invoked = [] ∧ st2.writes = [] := by
  have hrun' : run impl names st0 raw =
      Except.ok (loop impl names (initLoop raw none)) := by
    simp [run, startIndex, h0]
  have hst1 : st1 = loop impl names (initLoop raw none) := by
    have h2 := hrun'.symm.trans hrun
    injection h2 with h2
    exact h2.symm
  obtain ⟨l, hl⟩ := lastName_isSome hne
  have hlast : st1.last = some l := by
    rw [hst1]
    rw [loop_last_or impl names (initLoop raw none)
      (by rw [← hst1]; exact hh) (by rw [← hst1]; exact herr), hl]
    rfl
  have hlmem : l ∈ names := lastName_mem hl
  have hlne : l ≠ "" := fun h => hempty (h ▸ hlmem)
  have hidx : indexOfName names l = some (names.length - 1) :=
    indexOfName_lastName hnd hl
  have hlen : names.length - 1 + 1 = names.length := by
    cases names with
    | nil => exact absurd rfl hne
    | cons x xs => simp
  have hstR : stR.last_completed_step = some l := hR.trans hlast
  refine ⟨initLoop rawR (some l), ?_, rfl, rfl⟩
  simp [run, startIndex, hstR, hlne, hidx, hlen, loop]

/-- Witness for `idempotent_resume`: a completed run of `STEPS` with
identity collaborators, then a resume that invokes and writes nothing. -/
theorem idempotent_resume_witness :
    ∃ st2, run (stepImpl idCollab) STEPS
        { last_completed_step := some "create_participant_id",
          input_file := "in", output_dir := "out", state_path := "state" }
        [] = Except.ok st2 ∧ st2.invoked = [] ∧ st2.writes = [] :=
  idempotent_resume (stepImpl idCollab) STEPS
    { last_completed_step := none, input_file := "in", output_dir := "out",
      state_path := "state" }
    { last_completed_step := some "create_participant_id",
      input_file := "in", output_dir := "out", state_path := "state" }
    [] []
    (loop (stepImpl idCollab) STEPS (initLoop [] none))
    (by decide) (by decide) (by decide) rfl rfl rfl rfl rfl

end SwainPipe
